import Mathlib

/-!
Verification of the scene/resource caching and incremental-update core of the
dxvk-remix renderer, shallowly embedded from
`src/dxvk/rtx_render/rtx_scene_manager.h` and
`src/dxvk/rtx_render/rtx_debug_view.h`.
Frame indices are `uint32_t` in the source and are modelled as `Nat`; the
source casts them to `int64_t` before subtracting, which is exact, so the
difference is modelled on `Int`.
-/

/-- Modelled from the spec: the GC frame-latency constant `kMaxFramesInFlight`
is defined outside the provided headers; the spec and the claims fix it at 3. -/
def kMaxFramesInFlight : Nat := 3

/-- Value of `kInvalidFrameIndex` (UINT32_MAX), used as the default `frameId`
of a `TexturePickingRequest`. -/
def kInvalidFrameIndex : Nat := 4294967295

/-- Local constant of `Highlighting.keepRequest`:
`constexpr auto numFramesConsiderHighlighting = kMaxFramesInFlight * 2`. -/
def numFramesConsiderHighlighting : Nat := kMaxFramesInFlight * 2

/-- `Highlighting::keepRequest` from `rtx_scene_manager.h`:
`std::abs(int64_t{frameIdOfRequest} - int64_t{curFrameId}) < numFramesConsiderHighlighting`.
Both arguments are `uint32_t`; the `int64_t` casts are exact. -/
def Highlighting.keepRequest (frameIdOfRequest curFrameId : Nat) : Bool :=
  ((frameIdOfRequest : Int) - (curFrameId : Int)).natAbs < numFramesConsiderHighlighting

/-- Circular (wraparound) distance between two 32-bit frame indices, used to
state what a wraparound-tolerant staleness check would compare. -/
def circDist32 (a b : Nat) : Nat :=
  min ((a + 2 ^ 32 - b) % 2 ^ 32) ((b + 2 ^ 32 - a) % 2 ^ 32)

/-- `Vector2i` pixel coordinate, from `rtx_debug_view.h`. -/
structure Vector2i where
  x : Int
  y : Int
deriving DecidableEq

/-- `FindSurfaceResult` from `rtx_debug_view.h`: a surface material index plus a
`std::future<XXH64_hash_t>` for the corresponding legacy texture hash. The
future is modelled by whether it is still valid (not moved-from); a moved-from
future can never deliver its hash. -/
structure FindSurfaceResult where
  surfaceMaterialIndex : Nat
  legacyTextureHashValid : Bool
deriving DecidableEq

/-- `TexturePickingRequest` from `rtx_debug_view.h`. -/
structure TexturePickingRequest where
  pixel : Vector2i := ⟨0, 0⟩
  frameId : Nat := kInvalidFrameIndex
deriving DecidableEq

/-- The pick/highlight channel state of `DebugView` guarded by
`m_texturePickMutex`: the pending request, the last placed result, and the
previously placed (consumable) result. -/
structure DebugView where
  texturePickRequest : TexturePickingRequest := {}
  texturePickResult : Option FindSurfaceResult := none
  texturePickResult_prev : Option FindSurfaceResult := none
deriving DecidableEq

/-- Effect of C++ move-construction on a `FindSurfaceResult`: the `uint32_t`
index is copied, the contained `std::future` of the source becomes invalid. -/
def FindSurfaceResult.movedFrom (r : FindSurfaceResult) : FindSurfaceResult :=
  { r with legacyTextureHashValid := false }

/-- `DebugView::requestFindSurfaceUnder`: overwrites the pending request. -/
def DebugView.requestFindSurfaceUnder (s : DebugView) (pixel : Vector2i)
    (frameIdOfTheRequest : Nat) : DebugView :=
  { s with texturePickRequest := ⟨pixel, frameIdOfTheRequest⟩ }

/-- `DebugView::placeFindSurfaceResult`: shifts the stored result into the
consumable slot and stores the new result
(`m_texturePickResult_prev = std::move(m_texturePickResult);
m_texturePickResult = std::move(result);`). -/
def DebugView.placeFindSurfaceResult (result : Option FindSurfaceResult)
    (s : DebugView) : DebugView :=
  { s with texturePickResult_prev := s.texturePickResult,
           texturePickResult := result }

/-- `DebugView::consumeLastAvailableFindSurfaceResult`: returns
`std::move(m_texturePickResult_prev)`. The member itself is not reset; the
caller move-constructs from the returned rvalue reference, which leaves the
member `optional` engaged but with its future moved out. The pair is the
value obtained by the caller and the member state afterwards. -/
def DebugView.consumeLastAvailableFindSurfaceResult (s : DebugView) :
    Option FindSurfaceResult × DebugView :=
  (s.texturePickResult_prev,
   { s with texturePickResult_prev :=
       s.texturePickResult_prev.map FindSurfaceResult.movedFrom })

/-- `DebugView::isFindSurfaceRequestActive` from `rtx_debug_view.h`: returns
the requested pixel while
`std::abs(int64_t{m_texturePickRequest.frameId} - int64_t{currentFrameId})`
is below `kMaxFramesInFlight * 2`, otherwise nothing. -/
def DebugView.isFindSurfaceRequestActive (s : DebugView) (currentFrameId : Nat) :
    Option Vector2i :=
  if ((s.texturePickRequest.frameId : Int) - (currentFrameId : Int)).natAbs <
      kMaxFramesInFlight * 2 then
    some s.texturePickRequest.pixel
  else
    none

/-- Successive placements of pick results, oldest first. -/
def DebugView.placeAll (s : DebugView) (rs : List (Option FindSurfaceResult)) :
    DebugView :=
  rs.foldl (fun t r => DebugView.placeFindSurfaceResult r t) s

/-- First association with key `h` in an entry list (key = geometry hash). -/
def findEntry (h : Nat) : List (Nat × Nat) → Option (Nat × Nat)
  | [] => none
  | e :: t => if e.1 = h then some e else findEntry h t

/-- Modelled from the spec: `DrawCallCache` (`rtx_draw_call_cache.h` is not
among the provided sources, only the member `m_drawCallCache` is). A map from
geometry hash to a persistent scene-object handle; entries are only removed by
the GC, never mid-frame. `entries` pairs each geometry hash with its handle;
`nextHandle` generates fresh handles. -/
structure DrawCallCache where
  entries : List (Nat × Nat) := []
  nextHandle : Nat := 0
deriving DecidableEq

/-- Modelled from the spec: `lookup_or_create(geometry_hash) ->
(ObjectRecord&, bool isNew)` returns the existing record's handle when the
geometry hash is already cached, otherwise appends a record under a fresh
handle. Returns (handle, isNew, updated cache). -/
def DrawCallCache.lookupOrCreate (c : DrawCallCache) (h : Nat) :
    Nat × Bool × DrawCallCache :=
  match findEntry h c.entries with
  | some e => (e.2, false, c)
  | none =>
    (c.nextHandle, true,
     { entries := c.entries ++ [(h, c.nextHandle)], nextHandle := c.nextHandle + 1 })

/-- Handle currently assigned to a geometry hash, if any. -/
def DrawCallCache.handleOf (c : DrawCallCache) (h : Nat) : Option Nat :=
  (findEntry h c.entries).map (fun e => e.2)

/-- Processes a stream of draw-call geometry hashes in submission order,
returning the handle each draw call received and the final cache. -/
def processStream (c : DrawCallCache) : List Nat → List Nat × DrawCallCache
  | [] => ([], c)
  | h :: t =>
    let r := c.lookupOrCreate h
    let rest := processStream r.2.2 t
    (r.1 :: rest.1, rest.2)

/-- Boolean check that no two entries share a key: a content hash maps to at
most one live cache entry. -/
def noDupKeys : List (Nat × Nat) → Bool
  | [] => true
  | e :: t => t.all (fun x => x.1 != e.1) && noDupKeys t

/-- `SceneManager::ObjectCacheState` from `rtx_scene_manager.h`
(`kUpdateInstance = 0`, `kUpdateBVH = 1`, `KBuildBVH = 2`, `kInvalid = -1`). -/
inductive ObjectCacheState where
  | kUpdateInstance
  | kUpdateBVH
  | KBuildBVH
  | kInvalid
deriving DecidableEq

/-- Geometry content of a submitted draw call, as the Update Classifier sees
it: the stable geometry hash keying the Draw-Call Object Cache, the full
content hash, and the vertex/index counts. -/
structure DrawCallGeo where
  geomHash : Nat
  contentHash : Nat
  vertexCount : Nat
  indexCount : Nat
deriving DecidableEq

/-- Cached scene-object (BLAS) record: last-seen content hash and the cached
vertex/index counts. -/
structure BlasEntry where
  lastHash : Nat
  vertexCount : Nat
  indexCount : Nat
deriving DecidableEq

/-- Modelled from the spec: the body of
`SceneManager::processGeometryInfo<bool isNew>` is not among the provided
sources; §4.3's decision rule for an existing cached record: content hash
equal to the record's last-seen hash → `kUpdateInstance`; otherwise `isNew`
or a vertex/index count mismatch → `KBuildBVH`; otherwise → `kUpdateBVH`. -/
def processGeometryInfo (isNew : Bool) (cached : BlasEntry) (d : DrawCallGeo) :
    ObjectCacheState :=
  if d.contentHash = cached.lastHash then
    ObjectCacheState.kUpdateInstance
  else if isNew || d.vertexCount != cached.vertexCount
       || d.indexCount != cached.indexCount then
    ObjectCacheState.KBuildBVH
  else
    ObjectCacheState.kUpdateBVH

/-- Scene state visible to the classifier: the cached record per geometry
hash. -/
abbrev SceneState := List (Nat × BlasEntry)

/-- First cached record for a geometry hash. -/
def sceneLookup (s : SceneState) (h : Nat) : Option BlasEntry :=
  match s with
  | [] => none
  | e :: t => if e.1 = h then some e.2 else sceneLookup t h

/-- The pure classification function of the pair (previous scene-object state,
new draw-call content) that the claim describes: a new object (no cached
record) is always a full build; an existing record follows
`processGeometryInfo`'s decision rule. -/
def classifierOf : Option BlasEntry → DrawCallGeo → ObjectCacheState
  | none, _ => ObjectCacheState.KBuildBVH
  | some r, d => processGeometryInfo false r d

/-- Record stored for a draw call after it is processed. -/
def recordOf (d : DrawCallGeo) : BlasEntry :=
  ⟨d.contentHash, d.vertexCount, d.indexCount⟩

/-- Modelled from the spec: one step of the draw-call submission path
(`SceneManager::processDrawCallState`, body not among the provided sources):
look the geometry hash up in the Draw-Call Object Cache, classify the draw
call against the cached record (new object → full build), and store the
draw call's content as the record last seen for that hash. -/
def submitDraw (s : SceneState) (d : DrawCallGeo) : ObjectCacheState × SceneState :=
  match sceneLookup s d.geomHash with
  | some r => (processGeometryInfo false r d, (d.geomHash, recordOf d) :: s)
  | none => (ObjectCacheState.KBuildBVH, (d.geomHash, recordOf d) :: s)

/-- A reference-counted cache entry as the Cross-Frame Garbage Collector sees
it: a stable id, its reference count, and the mark tag — the frame index at
which it became unreferenced, if it has been marked. -/
structure CacheEntry where
  id : Nat
  refCount : Nat
  zeroFrame : Option Nat
deriving DecidableEq

/-- A reference-counted cache subject to garbage collection. -/
structure GcCache where
  entries : List CacheEntry
deriving DecidableEq

/-- Mark phase on one entry at current frame `cur`: an unreferenced entry that
is not yet tagged is tagged with `cur` (the frame at which it became
unreferenced); a referenced entry is not GC-eligible and loses any tag. -/
def markEntry (cur : Nat) (e : CacheEntry) : CacheEntry :=
  if e.refCount = 0 then
    match e.zeroFrame with
    | none => { e with zeroFrame := some cur }
    | some _ => e
  else
    { e with zeroFrame := none }

/-- Reap keep-predicate at current frame `cur`: an entry tagged at frame `f`
is removed once it was tagged at least `kMaxFramesInFlight` frames ago, i.e.
exactly when `f + kMaxFramesInFlight ≤ cur`. -/
def keepEntry (cur : Nat) (e : CacheEntry) : Bool :=
  match e.zeroFrame with
  | some f => decide (cur < f + kMaxFramesInFlight)
  | none => true

/-- Modelled from the spec: the body of `SceneManager::garbageCollection` is
not among the provided sources; §4.5's two-phase collector, run once per frame
after instance reconciliation: (1) mark unreferenced entries with the frame at
which they became unreferenced, (2) reap entries tagged at least
`kMaxFramesInFlight` frames ago. -/
def garbageCollection (cur : Nat) (c : GcCache) : GcCache :=
  ⟨(c.entries.map (markEntry cur)).filter (keepEntry cur)⟩

/-- Runs the garbage collector once per frame over a list of frame indices. -/
def gcRun (c : GcCache) (frames : List Nat) : GcCache :=
  frames.foldl (fun t f => garbageCollection f t) c

/-- `ResourceCache::find`-style lookup: whether an entry with the given id is
still present in the cache. -/
def GcCache.find (c : GcCache) (i : Nat) : Bool :=
  c.entries.any (fun e => e.id == i)

/-- State of the texture-hash-resolution channel of `SceneManager`
(`m_findLegacyTexture`, guarded by `m_findLegacyTextureMutex`). The
`std::promise<XXH64_hash_t>` of a `PromisedSurfMaterialIndex` is modelled by
a fresh promise id; `fulfilled` records which promises were ever resolved and
with which hash. At most one request is outstanding (`Option`). -/
structure LegacyTexState where
  findLegacyTexture : Option (Nat × Nat) := none
  nextPromiseId : Nat := 0
  fulfilled : List (Nat × Nat) := []
deriving DecidableEq

/-- Modelled from the spec: the body of
`SceneManager::findLegacyTextureHashBySurfaceMaterialIndex` is not among the
provided sources; §4.6: the caller submits a target surface-material index and
immediately receives a deferred result handle (the promise id of the future);
the new request overwrites the single slot, so any unfulfilled prior promise
is abandoned. -/
def findLegacyTextureHashBySurfaceMaterialIndex (s : LegacyTexState)
    (surfaceMaterialIndex : Nat) : Nat × LegacyTexState :=
  (s.nextPromiseId,
   { s with findLegacyTexture := some (surfaceMaterialIndex, s.nextPromiseId),
            nextPromiseId := s.nextPromiseId + 1 })

/-- Modelled from the spec: the render-submission path, when it encounters a
draw call whose resolved material index matches the outstanding target,
fulfills the deferred result with that draw call's legacy texture hash and
clears the slot; otherwise the state is unchanged. -/
def fulfillOnDraw (s : LegacyTexState) (drawMaterialIndex legacyHash : Nat) :
    LegacyTexState :=
  match s.findLegacyTexture with
  | some tp =>
    if drawMaterialIndex = tp.1 then
      { s with findLegacyTexture := none, fulfilled := (tp.2, legacyHash) :: s.fulfilled }
    else
      s
  | none => s

/-- Runs the render path over a list of (resolved material index, legacy
texture hash) draw-call events. -/
def runDraws (s : LegacyTexState) (events : List (Nat × Nat)) : LegacyTexState :=
  events.foldl (fun t e => fulfillOnDraw t e.1 e.2) s

/-- `DxvkSamplerCreateInfo`: the full sampler description compared by
`ResourceCache::SamplerKeyEqual`; modelled opaquely. -/
structure DxvkSamplerCreateInfo where
  fields : Nat
deriving DecidableEq

/-- `DxvkSampler`: exposes its full description `info()`. Its `hash()` is a
function of the description and is supplied as a parameter below so that
distinct descriptions with colliding hashes are representable. -/
structure DxvkSampler where
  info : DxvkSamplerCreateInfo
deriving DecidableEq

/-- `ResourceCache::SamplerKeyEqual` from `rtx_scene_manager.h`:
`lhs->info() == rhs->info()`. -/
def SamplerKeyEqual (lhs rhs : DxvkSampler) : Bool :=
  decide (lhs.info = rhs.info)

/-- First index in the dense sampler table whose entry satisfies `p`. -/
def findIn (p : DxvkSampler → Bool) : List DxvkSampler → Option Nat
  | [] => none
  | e :: t => if p e then some 0 else (findIn p t).map (fun i => i + 1)

/-- Modelled from the spec: the insert of
`SparseUniqueCache<Rc<DxvkSampler>, SamplerHashFn, SamplerKeyEqual>`
(`rtx_sparse_unique_cache.h` is not among the provided sources): a hash match
is resolved by the dedicated equality predicate `SamplerKeyEqual`; an equal
value reuses the existing dense index, anything else (including a genuine
hash collision) is appended as a fresh distinct entry. `hashFn` models
`DxvkSampler::hash()` as a function of the description. -/
def samplerPred (hashFn : DxvkSamplerCreateInfo → Nat) (s : DxvkSampler)
    (e : DxvkSampler) : Bool :=
  hashFn e.info == hashFn s.info && SamplerKeyEqual e s

/-- Modelled from the spec: the insert operation of the sampler
`SparseUniqueCache`: the bucket candidate (hash match) is resolved by the
dedicated equality predicate; an equal value reuses the existing dense index,
anything else is appended as a fresh distinct entry. -/
def samplerTrack (hashFn : DxvkSamplerCreateInfo → Nat) (table : List DxvkSampler)
    (s : DxvkSampler) : Nat × List DxvkSampler :=
  match findIn (samplerPred hashFn s) table with
  | some i => (i, table)
  | none => (table.length, table ++ [s])

/-- A `DebugView` state whose consumable slot holds a completed pick result. -/
def c7State : DebugView :=
  { texturePickResult_prev := some ⟨7, true⟩ }

/-- C4 helper: the theorems below refer to the window bound `2 * 3 = 6`. -/
theorem numFramesConsiderHighlighting_eq : numFramesConsiderHighlighting = 6 := rfl

/-- C4: a pick/highlight request with request frame `R` and current frame `C`
is considered live exactly when `|R - C| < 2 * kMaxFramesInFlight = 6`; in
particular a request submitted at frame 100 is honored when resolved at any
frame from 100 up to 105 and ignored from frame 106 on, and
`DebugView::isFindSurfaceRequestActive` applies the same staleness predicate
to its stored request. -/
theorem keepRequest_window :
    (∀ R C : Nat, Highlighting.keepRequest R C = true ↔
        ((R : Int) - (C : Int)).natAbs < 2 * kMaxFramesInFlight)
    ∧ (∀ C : Nat, 100 ≤ C → (Highlighting.keepRequest 100 C = true ↔ C ≤ 105))
    ∧ (∀ C : Nat, 106 ≤ C → Highlighting.keepRequest 100 C = false)
    ∧ (∀ (s : DebugView) (C : Nat),
        (s.isFindSurfaceRequestActive C).isSome =
          Highlighting.keepRequest s.texturePickRequest.frameId C) := by
  refine ⟨?_, ?_, ?_, ?_⟩
  · intro R C
    simp only [Highlighting.keepRequest, numFramesConsiderHighlighting,
      kMaxFramesInFlight, decide_eq_true_eq]
  · intro C hC
    simp only [Highlighting.keepRequest, numFramesConsiderHighlighting,
      kMaxFramesInFlight, decide_eq_true_eq]
    omega
  · intro C hC
    simp only [Highlighting.keepRequest, numFramesConsiderHighlighting,
      kMaxFramesInFlight, decide_eq_false_iff_not]
    omega
  · intro s C
    by_cases h : ((s.texturePickRequest.frameId : Int) - (C : Int)).natAbs <
        kMaxFramesInFlight * 2
    · simp [DebugView.isFindSurfaceRequestActive, Highlighting.keepRequest,
        numFramesConsiderHighlighting, h, Nat.mul_comm]
    · simp [DebugView.isFindSurfaceRequestActive, Highlighting.keepRequest,
        numFramesConsiderHighlighting, h, Nat.mul_comm]

/-- C4 witness: a request from frame 100 is honored at frame 105 and ignored
at frame 106. -/
theorem keepRequest_window_witness :
    Highlighting.keepRequest 100 105 = true ∧ Highlighting.keepRequest 100 106 = false :=
  ⟨(keepRequest_window.2.1 105 (by decide)).mpr (by decide),
   keepRequest_window.2.2.1 106 (by decide)⟩

/-- C5 counterexample: the frame pair R = 2^32 - 1, C = 1 straddles the
wraparound of the 32-bit frame counter with circular distance 2 < 6, yet
`Highlighting::keepRequest` treats the request as stale, because
`std::abs(int64_t{R} - int64_t{C})` is the exact distance 2^32 - 2, not the
circular one. -/
theorem keepRequest_wraparound_stale_cex :
    circDist32 (2 ^ 32 - 1) 1 < 2 * kMaxFramesInFlight
    ∧ Highlighting.keepRequest (2 ^ 32 - 1) 1 = false := by
  constructor
  · decide
  · decide

/-- C5 amended: the staleness check keeps a request exactly when the exact
(unwrapped) absolute difference of the two frame indices is below
`2 * kMaxFramesInFlight`; pairs that straddle a wraparound of the frame
counter are treated as stale. -/
theorem keepRequest_exact_distance :
    (∀ R C : Nat, Highlighting.keepRequest R C = true ↔
        ((R : Int) - (C : Int)).natAbs < 2 * kMaxFramesInFlight)
    ∧ Highlighting.keepRequest (2 ^ 32 - 1) 1 = false := by
  constructor
  · intro R C
    simp only [Highlighting.keepRequest, numFramesConsiderHighlighting,
      kMaxFramesInFlight, decide_eq_true_eq]
  · decide

/-- C10: the find-surface result slot is double-buffered: after any sequence
of placements ending in `a` then `b`, the consumable slot read by
`consumeLastAvailableFindSurfaceResult` holds `a`, the next-to-last placement;
and immediately after placing `a` the consumable slot still holds the result
that was pending before, so `a` itself is not retrievable until one further
placement occurs. -/
theorem find_surface_result_double_buffered :
    ∀ (s : DebugView) (rs : List (Option FindSurfaceResult))
      (a b : Option FindSurfaceResult),
      ((DebugView.placeAll s (rs ++ [a, b])).consumeLastAvailableFindSurfaceResult).1 = a
      ∧ ((DebugView.placeFindSurfaceResult a s).consumeLastAvailableFindSurfaceResult).1 =
          s.texturePickResult := by
  intro s rs a b
  constructor
  · simp [DebugView.placeAll, List.foldl_append, DebugView.placeFindSurfaceResult,
      DebugView.consumeLastAvailableFindSurfaceResult]
  · rfl

/-- C7 counterexample: from a state whose consumable slot holds a completed
result, a first consume yields that result, and an immediately following
consume (no new result placed in between) again yields an engaged optional —
not an empty one — because the source returns
`std::move(m_texturePickResult_prev)` without resetting the member; only the
moved-out future is lost. -/
theorem consume_twice_not_cleared_cex :
    c7State.consumeLastAvailableFindSurfaceResult.1 =
        some { surfaceMaterialIndex := 7, legacyTextureHashValid := true }
    ∧ (c7State.consumeLastAvailableFindSurfaceResult.2).consumeLastAvailableFindSurfaceResult.1
        ≠ none := by
  constructor
  · rfl
  · decide

/-- C7 amended: try-consume does not clear the slot: when a consume yields
result `r`, an immediately following consume yields `r` again with its
deferred texture-hash future invalidated (the optional stays engaged), and the
state is unchanged by further consumes until a new placement occurs. -/
theorem consume_returns_moved_from (s : DebugView) (r : FindSurfaceResult)
    (h : s.consumeLastAvailableFindSurfaceResult.1 = some r) :
    (s.consumeLastAvailableFindSurfaceResult.2).consumeLastAvailableFindSurfaceResult.1
        = some r.movedFrom
    ∧ (s.consumeLastAvailableFindSurfaceResult.2).consumeLastAvailableFindSurfaceResult.2
        = s.consumeLastAvailableFindSurfaceResult.2 := by
  have hp : s.texturePickResult_prev = some r := h
  constructor
  · simp [DebugView.consumeLastAvailableFindSurfaceResult, hp]
  · simp [DebugView.consumeLastAvailableFindSurfaceResult, hp,
      FindSurfaceResult.movedFrom]

/-- C7 amended witness: consuming twice from the concrete state yields the
same result with its future invalidated. -/
theorem consume_returns_moved_from_witness :
    (c7State.consumeLastAvailableFindSurfaceResult.2).consumeLastAvailableFindSurfaceResult.1
      = some { surfaceMaterialIndex := 7, legacyTextureHashValid := false } :=
  (consume_returns_moved_from c7State ⟨7, true⟩ (by decide)).1

/-- Helper: a map whose function fixes every element of the list is the
identity on that list. -/
theorem map_self_of_fixed {α : Type} (f : α → α) :
    ∀ l : List α, (∀ e ∈ l, f e = e) → l.map f = l
  | [], _ => rfl
  | a :: t, h => by
    have ha : f a = a := h a (by simp)
    have ht := map_self_of_fixed f t (fun e he => h e (by simp [he]))
    simp [ha, ht]

/-- Helper: filtering twice with the same predicate filters once. -/
theorem filter_idem {α : Type} (p : α → Bool) :
    ∀ l : List α, (l.filter p).filter p = l.filter p := by
  intro l
  induction l with
  | nil => rfl
  | cons a t ih =>
    by_cases h : p a <;> simp [List.filter_cons, h, ih]

/-- Helper: the mark phase is idempotent on each entry. -/
theorem markEntry_markEntry (cur : Nat) (e : CacheEntry) :
    markEntry cur (markEntry cur e) = markEntry cur e := by
  rcases e with ⟨i, rc, zf⟩
  cases rc <;> cases zf <;> simp [markEntry]

/-- C8: the garbage collector is idempotent within a frame: a second run at
the same frame, with no reconciliation in between, changes nothing — the
first run leaves every entry either referenced and untagged or unreferenced
and tagged, so the second mark phase fixes every entry, and reaping with the
same frame index removes nothing further. -/
theorem garbageCollection_idempotent :
    ∀ (cur : Nat) (c : GcCache),
      garbageCollection cur (garbageCollection cur c) = garbageCollection cur c := by
  intro cur c
  simp only [garbageCollection]
  congr 1
  have hmap : ((c.entries.map (markEntry cur)).filter (keepEntry cur)).map (markEntry cur)
      = (c.entries.map (markEntry cur)).filter (keepEntry cur) := by
    apply map_self_of_fixed
    intro e he
    have hm : e ∈ c.entries.map (markEntry cur) := List.mem_of_mem_filter he
    obtain ⟨x, _, rfl⟩ := List.mem_map.mp hm
    exact markEntry_markEntry cur x
  rw [hmap, filter_idem]

/-- Helper: a found association survives appending entries. -/
theorem findEntry_append_some (h : Nat) :
    ∀ (l l' : List (Nat × Nat)) (e : Nat × Nat),
      findEntry h l = some e → findEntry h (l ++ l') = some e := by
  intro l l' e
  induction l with
  | nil => intro hf; cases hf
  | cons a t ih =>
    intro hf
    by_cases ha : a.1 = h
    · simpa [findEntry, ha] using hf
    · simp only [findEntry, ha, if_false, List.cons_append] at hf ⊢
      exact ih hf

/-- Helper: a failed search continues into the appended suffix. -/
theorem findEntry_append_none (h : Nat) :
    ∀ (l l' : List (Nat × Nat)),
      findEntry h l = none → findEntry h (l ++ l') = findEntry h l' := by
  intro l l'
  induction l with
  | nil => intro _; rfl
  | cons a t ih =>
    intro hf
    by_cases ha : a.1 = h
    · simp [findEntry, ha] at hf
    · simp only [findEntry, ha, if_false] at hf
      simp only [List.cons_append, findEntry, ha, if_false]
      exact ih hf

/-- Helper: a failed search means no entry carries the key. -/
theorem findEntry_none (h : Nat) :
    ∀ l : List (Nat × Nat), findEntry h l = none → ∀ e ∈ l, e.1 ≠ h := by
  intro l
  induction l with
  | nil => intro _ e he; cases he
  | cons a t ih =>
    intro hf e he
    by_cases ha : a.1 = h
    · simp [findEntry, ha] at hf
    · simp only [findEntry, ha, if_false] at hf
      rcases List.mem_cons.mp he with rfl | hmem
      · exact ha
      · exact ih hf e hmem

/-- Helper: after `lookupOrCreate h`, the cache maps `h` to the returned
handle. -/
theorem lookupOrCreate_handleOf (c : DrawCallCache) (h : Nat) :
    (c.lookupOrCreate h).2.2.handleOf h = some (c.lookupOrCreate h).1 := by
  unfold DrawCallCache.lookupOrCreate DrawCallCache.handleOf
  cases hf : findEntry h c.entries with
  | some e => simp [hf]
  | none =>
    simp only
    rw [findEntry_append_none h c.entries _ hf]
    simp [findEntry]

/-- Helper: an existing hash-to-handle mapping survives any `lookupOrCreate`. -/
theorem lookupOrCreate_stable (c : DrawCallCache) (h h2 v : Nat)
    (hv : c.handleOf h = some v) :
    (c.lookupOrCreate h2).2.2.handleOf h = some v := by
  unfold DrawCallCache.handleOf at hv ⊢
  unfold DrawCallCache.lookupOrCreate
  cases hf2 : findEntry h2 c.entries with
  | some e => simpa [hf2] using hv
  | none =>
    cases hf : findEntry h c.entries with
    | some e =>
      simp only [hf2]
      rw [findEntry_append_some h c.entries _ e hf]
      simpa [hf] using hv
    | none => simp [hf] at hv

/-- Helper: an existing hash-to-handle mapping survives a whole stream. -/
theorem processStream_stable (h v : Nat) :
    ∀ (l : List Nat) (c : DrawCallCache), c.handleOf h = some v →
      (processStream c l).2.handleOf h = some v := by
  intro l
  induction l with
  | nil => intro c hv; exact hv
  | cons a t ih =>
    intro c hv
    exact ih _ (lookupOrCreate_stable c h a v hv)

/-- Helper: looking up a cached hash returns its mapped handle. -/
theorem lookupOrCreate_of_handleOf (c : DrawCallCache) (h v : Nat)
    (hv : c.handleOf h = some v) : (c.lookupOrCreate h).1 = v := by
  unfold DrawCallCache.handleOf at hv
  unfold DrawCallCache.lookupOrCreate
  cases hf : findEntry h c.entries with
  | some e => simp [hf] at hv ⊢; exact hv
  | none => simp [hf] at hv

/-- Helper: appending an entry with an unused key preserves key uniqueness. -/
theorem noDupKeys_append_single (h n : Nat) :
    ∀ l : List (Nat × Nat), noDupKeys l = true → (∀ e ∈ l, e.1 ≠ h) →
      noDupKeys (l ++ [(h, n)]) = true := by
  intro l
  induction l with
  | nil => intro _ _; simp [noDupKeys]
  | cons a t ih =>
    intro hd hk
    simp only [noDupKeys, Bool.and_eq_true, List.all_eq_true] at hd
    simp only [List.cons_append, noDupKeys, Bool.and_eq_true, List.all_eq_true]
    refine ⟨?_, ih hd.2 (fun e he => hk e (List.mem_cons_of_mem a he))⟩
    intro x hx
    rcases List.mem_append.mp hx with hx | hx
    · exact hd.1 x hx
    · simp only [List.mem_singleton] at hx
      subst hx
      have : a.1 ≠ h := hk a (List.mem_cons_self a t)
      simp [bne_iff_ne]
      exact fun hh => this hh.symm

/-- Helper: `lookupOrCreate` preserves key uniqueness. -/
theorem lookupOrCreate_noDup (c : DrawCallCache) (h : Nat)
    (hd : noDupKeys c.entries = true) :
    noDupKeys (c.lookupOrCreate h).2.2.entries = true := by
  unfold DrawCallCache.lookupOrCreate
  cases hf : findEntry h c.entries with
  | some e => simpa using hd
  | none =>
    simp only
    exact noDupKeys_append_single h c.nextHandle c.entries hd (findEntry_none h c.entries hf)

/-- Helper: a stream of submissions preserves key uniqueness. -/
theorem processStream_noDup :
    ∀ (l : List Nat) (c : DrawCallCache), noDupKeys c.entries = true →
      noDupKeys (processStream c l).2.entries = true := by
  intro l
  induction l with
  | nil => intro c hd; exact hd
  | cons a t ih => intro c hd; exact ih _ (lookupOrCreate_noDup c a hd)

/-- C1: two draw calls with bit-identical geometry content (hence the same
geometry hash `h`) receive the same Scene Object handle from the Draw-Call
Object Cache no matter which draw calls are submitted between them — and by
symmetry of the statement in the surrounding stream, in either submission
order; moreover a geometry hash maps to at most one live cache entry
throughout. -/
theorem drawCallCache_identical_geometry_same_handle
    (c : DrawCallCache) (mid : List Nat) (h : Nat)
    (hwf : noDupKeys c.entries = true) :
    ((processStream (c.lookupOrCreate h).2.2 mid).2.lookupOrCreate h).1 =
        (c.lookupOrCreate h).1
    ∧ noDupKeys (((processStream (c.lookupOrCreate h).2.2 mid).2.lookupOrCreate h).2.2.entries)
        = true := by
  constructor
  · exact lookupOrCreate_of_handleOf _ h _
      (processStream_stable h _ mid _ (lookupOrCreate_handleOf c h))
  · exact lookupOrCreate_noDup _ h (processStream_noDup mid _ (lookupOrCreate_noDup c h hwf))

/-- C1 witness: in a fresh cache, a draw call with geometry hash 9, followed
by unrelated draw calls 5 and 7, followed by a second draw call with hash 9,
yields the same handle for both submissions. -/
theorem drawCallCache_identical_geometry_same_handle_witness :
    ((processStream ((⟨[], 0⟩ : DrawCallCache).lookupOrCreate 9).2.2 [5, 7]).2.lookupOrCreate 9).1
      = ((⟨[], 0⟩ : DrawCallCache).lookupOrCreate 9).1 :=
  (drawCallCache_identical_geometry_same_handle ⟨[], 0⟩ [5, 7] 9 (by decide)).1

/-- Helper: the classification emitted by the submission path is the pure
classifier of (previously cached record, draw-call content). -/
theorem submitDraw_fst (s : SceneState) (d : DrawCallGeo) :
    (submitDraw s d).1 = classifierOf (sceneLookup s d.geomHash) d := by
  unfold submitDraw classifierOf
  cases sceneLookup s d.geomHash <;> rfl

/-- C2: the Update Classifier's outcome is the pure function `classifierOf` of
the pair (previous Scene Object state, new draw-call content) — two frame
states agreeing on the cached record of the draw call's geometry hash yield
the same outcome, independent of submission order — and that function follows
the spec's decision rule: equal content hash → `kUpdateInstance`; unequal
hash with a vertex/index count mismatch, or a new object → `KBuildBVH`;
unequal hash with matching counts → `kUpdateBVH`. -/
theorem processGeometryInfo_pure_decision_rule :
    (∀ (s : SceneState) (d : DrawCallGeo),
        (submitDraw s d).1 = classifierOf (sceneLookup s d.geomHash) d)
    ∧ (∀ (s1 s2 : SceneState) (d : DrawCallGeo),
        sceneLookup s1 d.geomHash = sceneLookup s2 d.geomHash →
          (submitDraw s1 d).1 = (submitDraw s2 d).1)
    ∧ (∀ (r : BlasEntry) (d : DrawCallGeo), d.contentHash = r.lastHash →
        processGeometryInfo false r d = ObjectCacheState.kUpdateInstance)
    ∧ (∀ (r : BlasEntry) (d : DrawCallGeo), d.contentHash ≠ r.lastHash →
        (d.vertexCount ≠ r.vertexCount ∨ d.indexCount ≠ r.indexCount) →
        processGeometryInfo false r d = ObjectCacheState.KBuildBVH)
    ∧ (∀ d : DrawCallGeo, classifierOf none d = ObjectCacheState.KBuildBVH)
    ∧ (∀ (r : BlasEntry) (d : DrawCallGeo), d.contentHash ≠ r.lastHash →
        processGeometryInfo true r d = ObjectCacheState.KBuildBVH)
    ∧ (∀ (r : BlasEntry) (d : DrawCallGeo), d.contentHash ≠ r.lastHash →
        d.vertexCount = r.vertexCount → d.indexCount = r.indexCount →
        processGeometryInfo false r d = ObjectCacheState.kUpdateBVH) := by
  refine ⟨submitDraw_fst, ?_, ?_, ?_, ?_, ?_, ?_⟩
  · intro s1 s2 d heq
    rw [submitDraw_fst, submitDraw_fst, heq]
  · intro r d hh
    simp [processGeometryInfo, hh]
  · intro r d hh hc
    rcases hc with hc | hc <;> simp [processGeometryInfo, hh, hc]
  · intro d
    rfl
  · intro r d hh
    simp [processGeometryInfo, hh]
  · intro r d hh hv hi
    simp [processGeometryInfo, hh, hv, hi]

/-- C2 witness: a resubmitted draw call whose content hash matches the cached
record is classified as an instance-only update. -/
theorem processGeometryInfo_pure_decision_rule_witness :
    processGeometryInfo false ⟨5, 4, 6⟩ ⟨1, 5, 4, 6⟩ = ObjectCacheState.kUpdateInstance :=
  processGeometryInfo_pure_decision_rule.2.2.1 ⟨5, 4, 6⟩ ⟨1, 5, 4, 6⟩ rfl

/-- Helper: a marked unreferenced entry survives one GC run at any frame
strictly inside its grace window. -/
theorem gc_keeps_marked (i F cur : Nat) (c : GcCache)
    (hcur : cur < F + kMaxFramesInFlight)
    (he : CacheEntry.mk i 0 (some F) ∈ c.entries) :
    CacheEntry.mk i 0 (some F) ∈ (garbageCollection cur c).entries := by
  unfold garbageCollection
  apply List.mem_filter.mpr
  refine ⟨?_, ?_⟩
  · exact List.mem_map.mpr ⟨CacheEntry.mk i 0 (some F), he, rfl⟩
  · simpa [keepEntry] using hcur

/-- Helper: a marked unreferenced entry survives GC runs at any sequence of
frames strictly inside its grace window. -/
theorem gcRun_keeps_marked (i F : Nat) :
    ∀ (frames : List Nat) (c : GcCache),
      (∀ f ∈ frames, f < F + kMaxFramesInFlight) →
      CacheEntry.mk i 0 (some F) ∈ c.entries →
      CacheEntry.mk i 0 (some F) ∈ (gcRun c frames).entries := by
  intro frames
  induction frames with
  | nil => intro c _ he; exact he
  | cons f t ih =>
    intro c hf he
    exact ih _ (fun g hg => hf g (List.mem_cons_of_mem f hg))
      (gc_keeps_marked i F f c (hf f (List.mem_cons_self f t)) he)

/-- C3: an entry that became unreferenced (and was mark-tagged) at frame `F`
survives garbage collection at every frame strictly before
`F + kMaxFramesInFlight`, and a lookup against it still succeeds; the entry is
reclaimed only by a GC run at frame `F + kMaxFramesInFlight` or later. -/
theorem gc_grace_window (c : GcCache) (i F : Nat) (frames : List Nat)
    (he : CacheEntry.mk i 0 (some F) ∈ c.entries)
    (hframes : ∀ f ∈ frames, f < F + kMaxFramesInFlight) :
    GcCache.find (gcRun c frames) i = true
    ∧ ∀ G, F + kMaxFramesInFlight ≤ G →
        CacheEntry.mk i 0 (some F) ∉ (garbageCollection G (gcRun c frames)).entries := by
  have hmem := gcRun_keeps_marked i F frames c hframes he
  constructor
  · apply List.any_eq_true.mpr
    exact ⟨CacheEntry.mk i 0 (some F), hmem, by simp⟩
  · intro G hG hin
    have hkeep := (List.mem_filter.mp hin).2
    simp only [keepEntry, decide_eq_true_eq] at hkeep
    omega

/-- C3 witness: an entry unreferenced at frame 10 is still findable after GC
runs at frames 10, 11 and 12, and is reclaimed by the GC run at frame 13. -/
theorem gc_grace_window_witness :
    GcCache.find (gcRun ⟨[⟨1, 0, some 10⟩]⟩ [10, 11, 12]) 1 = true
    ∧ CacheEntry.mk 1 0 (some 10) ∉
        (garbageCollection 13 (gcRun ⟨[⟨1, 0, some 10⟩]⟩ [10, 11, 12])).entries :=
  ⟨(gc_grace_window ⟨[⟨1, 0, some 10⟩]⟩ 1 10 [10, 11, 12] (by decide) (by decide)).1,
   (gc_grace_window ⟨[⟨1, 0, some 10⟩]⟩ 1 10 [10, 11, 12] (by decide) (by decide)).2
     13 (by decide)⟩

/-- Helper: one draw-call event can fulfill only the promise currently in the
slot: if a promise id is neither fulfilled nor in the slot, it stays so. -/
theorem fulfillOnDraw_invariant (pid : Nat) (s : LegacyTexState) (a b : Nat)
    (h1 : ∀ h : Nat, (pid, h) ∉ s.fulfilled)
    (h2 : ∀ tp, s.findLegacyTexture = some tp → tp.2 ≠ pid) :
    (∀ h : Nat, (pid, h) ∉ (fulfillOnDraw s a b).fulfilled)
    ∧ (∀ tp, (fulfillOnDraw s a b).findLegacyTexture = some tp → tp.2 ≠ pid) := by
  unfold fulfillOnDraw
  cases hslot : s.findLegacyTexture with
  | none => exact ⟨h1, h2⟩
  | some tp =>
    by_cases hm : a = tp.1
    · simp only [hm, if_true]
      constructor
      · intro h hmem
        rcases List.mem_cons.mp hmem with heq | hmem'
        · have hpid : pid = tp.2 := congrArg Prod.fst heq
          exact h2 tp hslot hpid.symm
        · exact h1 h hmem'
      · intro tp' htp'
        simp at htp'
    · simp only [hm, if_false]
      exact ⟨h1, fun tp' htp' => h2 tp' (by rw [← htp'])⟩

/-- Helper: across any sequence of draw-call events, a promise id that is
neither fulfilled nor in the slot is never fulfilled. -/
theorem runDraws_no_fulfill (pid : Nat) :
    ∀ (events : List (Nat × Nat)) (s : LegacyTexState),
      (∀ h : Nat, (pid, h) ∉ s.fulfilled) →
      (∀ tp, s.findLegacyTexture = some tp → tp.2 ≠ pid) →
      ∀ h : Nat, (pid, h) ∉ (runDraws s events).fulfilled := by
  intro events
  induction events with
  | nil => intro s h1 _ h; exact h1 h
  | cons e t ih =>
    intro s h1 h2 h
    have hstep := fulfillOnDraw_invariant pid s e.1 e.2 h1 h2
    exact ih _ hstep.1 hstep.2 h

/-- C6: submitting a second texture-hash-resolution request before the first
one is fulfilled overwrites the single outstanding-request slot: afterwards
only the second request (with its fresh promise id) is outstanding, the first
request's promise is never fulfilled by any later sequence of draw calls, and
a draw call matching the second request's target fulfills the second
request's promise. -/
theorem legacy_texture_second_request_supersedes
    (s0 : LegacyTexState) (idx1 idx2 : Nat) (events : List (Nat × Nat))
    (hfresh : ∀ p ∈ s0.fulfilled, p.1 ≠ s0.nextPromiseId) :
    (findLegacyTextureHashBySurfaceMaterialIndex
        (findLegacyTextureHashBySurfaceMaterialIndex s0 idx1).2 idx2).2.findLegacyTexture
      = some (idx2, (findLegacyTextureHashBySurfaceMaterialIndex
          (findLegacyTextureHashBySurfaceMaterialIndex s0 idx1).2 idx2).1)
    ∧ (findLegacyTextureHashBySurfaceMaterialIndex
        (findLegacyTextureHashBySurfaceMaterialIndex s0 idx1).2 idx2).1
        ≠ (findLegacyTextureHashBySurfaceMaterialIndex s0 idx1).1
    ∧ (∀ h : Nat, ((findLegacyTextureHashBySurfaceMaterialIndex s0 idx1).1, h) ∉
        (runDraws (findLegacyTextureHashBySurfaceMaterialIndex
          (findLegacyTextureHashBySurfaceMaterialIndex s0 idx1).2 idx2).2 events).fulfilled)
    ∧ (∀ hsh : Nat, (fulfillOnDraw (findLegacyTextureHashBySurfaceMaterialIndex
          (findLegacyTextureHashBySurfaceMaterialIndex s0 idx1).2 idx2).2 idx2 hsh).fulfilled
        = ((findLegacyTextureHashBySurfaceMaterialIndex
            (findLegacyTextureHashBySurfaceMaterialIndex s0 idx1).2 idx2).1, hsh)
          :: s0.fulfilled) := by
  refine ⟨rfl, by simp [findLegacyTextureHashBySurfaceMaterialIndex], ?_, ?_⟩
  · apply runDraws_no_fulfill
    · intro h hmem
      exact hfresh _ hmem rfl
    · intro tp htp
      have : tp = (idx2, s0.nextPromiseId + 1) := by
        simpa [findLegacyTextureHashBySurfaceMaterialIndex] using htp.symm
      subst this
      simp [findLegacyTextureHashBySurfaceMaterialIndex]
  · intro hsh
    simp [fulfillOnDraw, findLegacyTextureHashBySurfaceMaterialIndex]

/-- C6 witness: from an empty channel state, after requests for material
indices 4 then 9 and a draw call matching index 9, the first request's
promise (id 0) was never fulfilled. -/
theorem legacy_texture_second_request_supersedes_witness :
    ((0 : Nat), (42 : Nat)) ∉ (runDraws (findLegacyTextureHashBySurfaceMaterialIndex
      (findLegacyTextureHashBySurfaceMaterialIndex ⟨none, 0, []⟩ 4).2 9).2
        [(9, 77)]).fulfilled :=
  (legacy_texture_second_request_supersedes ⟨none, 0, []⟩ 4 9 [(9, 77)]
    (by simp)).2.2.1 42

/-- Helper: a sampler matches its own dedup predicate. -/
theorem samplerPred_self (hashFn : DxvkSamplerCreateInfo → Nat) (s : DxvkSampler) :
    samplerPred hashFn s s = true := by
  simp [samplerPred, SamplerKeyEqual]

/-- Helper: matching the dedup predicate means having the same description. -/
theorem samplerPred_info (hashFn : DxvkSamplerCreateInfo → Nat) (s e : DxvkSampler)
    (h : samplerPred hashFn s e = true) : e.info = s.info := by
  simp only [samplerPred, SamplerKeyEqual, Bool.and_eq_true, decide_eq_true_eq] at h
  exact h.2

/-- Helper: samplers with equal descriptions have the same dedup predicate. -/
theorem samplerPred_congr (hashFn : DxvkSamplerCreateInfo → Nat) (s1 s2 : DxvkSampler)
    (h : s1.info = s2.info) : samplerPred hashFn s1 = samplerPred hashFn s2 := by
  funext e
  simp [samplerPred, SamplerKeyEqual, h]

/-- Helper: a found index is in range and its entry satisfies the predicate. -/
theorem findIn_pred (p : DxvkSampler → Bool) :
    ∀ (l : List DxvkSampler) (i : Nat), findIn p l = some i →
      ∃ hlt : i < l.length, p (l.get ⟨i, hlt⟩) = true := by
  intro l
  induction l with
  | nil => intro i h; cases h
  | cons e t ih =>
    intro i h
    by_cases hp : p e
    · simp only [findIn, hp, if_true, Option.some.injEq] at h
      subst h
      exact ⟨Nat.succ_pos _, hp⟩
    · simp only [findIn, hp, Bool.false_eq_true, if_false] at h
      cases hf : findIn p t with
      | none => rw [hf] at h; cases h
      | some j =>
        rw [hf] at h
        simp only [Option.map_some', Option.some.injEq] at h
        subst h
        obtain ⟨hlt, hpj⟩ := ih j hf
        exact ⟨Nat.succ_lt_succ hlt, hpj⟩

/-- Helper: a found index is within the table. -/
theorem findIn_lt (p : DxvkSampler → Bool) (l : List DxvkSampler) (i : Nat)
    (h : findIn p l = some i) : i < l.length := by
  obtain ⟨hlt, _⟩ := findIn_pred p l i h
  exact hlt

/-- Helper: when a search fails on the table, a matching appended element is
found at the old table length. -/
theorem findIn_append_of_none (p : DxvkSampler → Bool) :
    ∀ (l : List DxvkSampler) (x : DxvkSampler), findIn p l = none → p x = true →
      findIn p (l ++ [x]) = some l.length := by
  intro l x
  induction l with
  | nil =>
    intro _ hx
    simp [findIn, hx]
  | cons e t ih =>
    intro hf hx
    by_cases hp : p e
    · simp [findIn, hp] at hf
    · simp only [findIn, hp, Bool.false_eq_true, if_false] at hf
      have hnone : findIn p t = none := by
        cases hft : findIn p t with
        | none => rfl
        | some j => rw [hft] at hf; cases hf
      show (if p e = true then some 0
            else Option.map (fun i => i + 1) (findIn p (t ++ [x]))) = some (t.length + 1)
      rw [if_neg hp, ih hnone hx]
      rfl

/-- Helper: the last element of an appended singleton sits at the old
length. -/
theorem get_append_length {α : Type} (a : α) :
    ∀ (l : List α) (hlt : l.length < (l ++ [a]).length),
      (l ++ [a]).get ⟨l.length, hlt⟩ = a
  | [], _ => rfl
  | b :: t, hlt => get_append_length a t (by simp)

/-- Helper: inserting `s1` and then `s2` dedups to the same dense index
exactly when their full descriptions are equal. -/
theorem samplerTrack_dedup_iff (hashFn : DxvkSamplerCreateInfo → Nat)
    (table : List DxvkSampler) (s1 s2 : DxvkSampler) :
    (samplerTrack hashFn (samplerTrack hashFn table s1).2 s2).1 =
        (samplerTrack hashFn table s1).1 ↔ s1.info = s2.info := by
  unfold samplerTrack
  cases hf1 : findIn (samplerPred hashFn s1) table with
  | some i =>
    simp only
    cases hf2 : findIn (samplerPred hashFn s2) table with
    | some j =>
      simp only [Option.some.injEq]
      constructor
      · intro hji
        subst hji
        obtain ⟨hlt1, hp1⟩ := findIn_pred _ _ _ hf1
        obtain ⟨hlt2, hp2⟩ := findIn_pred _ _ _ hf2
        rw [← samplerPred_info hashFn s1 _ hp1, ← samplerPred_info hashFn s2 _ hp2]
      · intro hinfo
        rw [samplerPred_congr hashFn s1 s2 hinfo] at hf1
        rw [hf1] at hf2
        injection hf2 with hij
        exact hij.symm
    | none =>
      simp only
      have hlt := findIn_lt _ _ _ hf1
      constructor
      · intro hli
        omega
      · intro hinfo
        rw [samplerPred_congr hashFn s1 s2 hinfo] at hf1
        rw [hf1] at hf2
        cases hf2
  | none =>
    simp only
    cases hf2 : findIn (samplerPred hashFn s2) (table ++ [s1]) with
    | some j =>
      simp only
      constructor
      · intro hj
        subst hj
        obtain ⟨hlt, hp⟩ := findIn_pred _ _ _ hf2
        rw [get_append_length s1 table hlt] at hp
        exact samplerPred_info hashFn s2 s1 hp
      · intro hinfo
        have hx : samplerPred hashFn s2 s1 = true := by
          rw [← samplerPred_congr hashFn s1 s2 hinfo]
          exact samplerPred_self hashFn s1
        have h1x : findIn (samplerPred hashFn s2) table = none := by
          rw [← samplerPred_congr hashFn s1 s2 hinfo]
          exact hf1
        rw [findIn_append_of_none _ table s1 h1x hx] at hf2
        injection hf2 with hj
        exact hj.symm
    | none =>
      simp only [List.length_append, List.length_singleton]
      constructor
      · intro hl
        omega
      · intro hinfo
        have hx : samplerPred hashFn s2 s1 = true := by
          rw [← samplerPred_congr hashFn s1 s2 hinfo]
          exact samplerPred_self hashFn s1
        have h1x : findIn (samplerPred hashFn s2) table = none := by
          rw [← samplerPred_congr hashFn s1 s2 hinfo]
          exact hf1
        rw [findIn_append_of_none _ table s1 h1x hx] at hf2
        cases hf2

/-- C9: inserting two samplers into the sampler cache dedups them to the same
dense entry exactly when their full descriptions (`info()`) are equal — the
dedup decision uses the dedicated equality predicate `SamplerKeyEqual`, never
hash equality alone — so two samplers whose hashes collide but whose
descriptions differ receive distinct entries. -/
theorem sampler_dedup_by_info (hashFn : DxvkSamplerCreateInfo → Nat)
    (table : List DxvkSampler) (s1 s2 : DxvkSampler) :
    ((samplerTrack hashFn (samplerTrack hashFn table s1).2 s2).1 =
        (samplerTrack hashFn table s1).1 ↔ s1.info = s2.info)
    ∧ (s1.info ≠ s2.info →
        (samplerTrack hashFn (samplerTrack hashFn table s1).2 s2).1 ≠
          (samplerTrack hashFn table s1).1) := by
  have main := samplerTrack_dedup_iff hashFn table s1 s2
  exact ⟨main, fun hne heq => hne (main.mp heq)⟩

/-- C9 witness: under a degenerate hash function on which all samplers
collide, two samplers with different descriptions still get distinct dense
entries. -/
theorem sampler_dedup_by_info_witness :
    (samplerTrack (fun _ => 0) ((samplerTrack (fun _ => 0) [] ⟨⟨0⟩⟩).2) ⟨⟨1⟩⟩).1
      ≠ (samplerTrack (fun _ => 0) [] ⟨⟨0⟩⟩).1 :=
  (sampler_dedup_by_info (fun _ => 0) [] ⟨⟨0⟩⟩ ⟨⟨1⟩⟩).2 (by decide)
